import Mathlib

/-
Shallow embedding of the VirtualFileSystem engine of src/vfs.py
(class VirtualFileSystem, lines 47-259).  The Tk GUI shell (class VFSGuiApp)
is excluded as an external collaborator, following the specification.

Modelling conventions:
* Python `str` is modelled as `List Char` (`Str` below); f-string
  concatenation is list append, `len` is `List.length`, `'/' in name` is
  list membership, `s.split('/')` and `'/'.join(...)` are `splitSlash` and
  `joinSlash` below.
* The Python dict `self.filesystem : Dict[str, FSItem]` is an association
  list with first-match lookup (`dictGet`), replace-first update (`dictSet`,
  the image of `d[k] = v`) and remove-first deletion (`dictErase`, the image
  of `del d[k]`).  Keys are unique in every state the code produces, so
  first-match semantics coincide with Python dict semantics.
* The two caches `dentry_cache : Dict[str, FSItem]` and
  `inode_cache : Dict[int, FSItem]` are modelled by their key lists only:
  in the whole engine the cached *values* are written but never read
  (`in`-tests, insertions, deletions and `clear` are the only accesses),
  so the key set determines every observable behaviour.
* `datetime.now()` is modelled by an abstract tick counter `clock` carried
  in the state; each call returns the current tick and advances it.  The
  textual rendering of a timestamp (isoformat/strftime) is modelled as the
  decimal digits of the tick; no engine behaviour depends on its shape.
* Python mutates `FSItem` objects in place; every such object is reachable
  from exactly one `filesystem` key (cache values are never read), so an
  in-place mutation is modelled as `dictSet` at that key.
* An uncaught Python exception (KeyError from `d[k]`, ValueError from
  `list.remove`) is modelled by the result `PyRes.exc`; mutations performed
  before the raise persist in the returned state, exactly as the live
  Python object retains them.
-/

namespace VFSim

/-- Python strings, modelled as lists of characters. -/
abbrev Str := List Char

/-- Coercion from Lean string literals to the model's string type. -/
def str (s : String) : Str := s.data

/-- The path "/" (the root), used pervasively by the source. -/
def rootPath : Str := str ("/")

/-- Python `s.split('/')`: greatest decomposition at '/' separators,
keeping empty segments, never returning an empty list. -/
def splitSlash : Str → List Str
  | [] => [[]]
  | c :: rest =>
    if c = '/' then [] :: splitSlash rest
    else
      match splitSlash rest with
      | [] => [[c]]
      | g :: gs => (c :: g) :: gs

/-- Python `'/'.join(parts)`. -/
def joinSlash : List Str → Str
  | [] => []
  | [s] => s
  | s :: rest => s ++ '/' :: joinSlash (rest)

/-- The source's repeated idiom
`f"{cp}/{name}" if cp != "/" else f"/{name}"` (vfs.py lines 127, 149, 182,
203, 223, 248). -/
def joinPath (cp name : Str) : Str :=
  if cp = rootPath then '/' :: name else cp ++ '/' :: name

/-- ItemType enum of vfs.py (FILE = "file", DIRECTORY = "dir"). -/
inductive ItemType
  | file
  | directory
deriving DecidableEq

/-- String value of the ItemType enum member, used in the create message. -/
def ItemType.value : ItemType → Str
  | .file => str ("file")
  | .directory => str ("dir")

/-- FSItem dataclass of vfs.py (lines 21-29). -/
structure FSItem where
  name : Str
  item_type : ItemType
  inode : Nat
  created : Nat
  children : List Str := []
  content : Str := []
  size : Nat := 0
deriving DecidableEq

/-- Operation record dataclass of vfs.py (lines 31-37). -/
structure Operation where
  timestamp : Nat
  operation : Str
  path : Str
  filesystem : Str
  success : Bool
deriving DecidableEq

/-- Statistics class of vfs.py (lines 39-45). -/
structure Statistics where
  total_files : Nat
  total_dirs : Nat
  operations : Nat
  cache_hits : Nat
  cache_misses : Nat
deriving DecidableEq

/-- Full engine state: the fields of class VirtualFileSystem (lines 48-57),
with the two caches reduced to their key lists and an abstract clock for
`datetime.now()`. -/
structure VFS where
  fs_label : Str
  filesystem : List (Str × FSItem)
  current_path : Str
  inode_counter : Nat
  stats : Statistics
  operation_log : List Operation
  dentry_cache : List Str
  inode_cache : List Nat
  clock : Nat
deriving DecidableEq

/-- Result of an engine call: Python `(True, msg)`, `(False, msg)`, or an
uncaught exception escaping the method. -/
inductive PyRes
  | ok (msg : Str)
  | err (msg : Str)
  | exc
deriving DecidableEq

/-- Boolean success test on a result. -/
def PyRes.isOk : PyRes → Bool
  | .ok _ => true
  | _ => false

/-- Python dict lookup `d.get(k)` / `k in d` on the association list. -/
def dictGet : List (Str × FSItem) → Str → Option FSItem
  | [], _ => none
  | (k', v) :: rest, k => if k' = k then some v else dictGet rest k

/-- Python dict assignment `d[k] = v`: replace the entry in place, or append
a fresh key at the end. -/
def dictSet : List (Str × FSItem) → Str → FSItem → List (Str × FSItem)
  | [], k, v => [(k, v)]
  | (k', v') :: rest, k, v =>
    if k' = k then (k, v) :: rest else (k', v') :: dictSet rest k v

/-- Python dict deletion `del d[k]` (k present in every use site; removing
the first match is the faithful image on unique keys). -/
def dictErase : List (Str × FSItem) → Str → List (Str × FSItem)
  | [], _ => []
  | (k', v') :: rest, k =>
    if k' = k then rest else (k', v') :: dictErase rest k

/-- VirtualFileSystem._log_operation (lines 112-121): append one journal
record and increment the operation counter; `datetime.now()` ticks the
clock. -/
def logOp (s : VFS) (op : Str) (path : Str) (success : Bool) : VFS :=
  { s with
    operation_log :=
      s.operation_log ++ [⟨s.clock, op, path, s.fs_label, success⟩],
    stats := { s.stats with operations := s.stats.operations + 1 },
    clock := s.clock + 1 }

/-- VirtualFileSystem._update_stats (lines 106-110): full recount of files
and directories over the store. -/
def updateStats (s : VFS) : VFS :=
  { s with
    stats :=
      { s.stats with
        total_files :=
          (s.filesystem.filter
            (fun e => e.2.item_type = ItemType.file)).length,
        total_dirs :=
          (s.filesystem.filter
            (fun e => e.2.item_type = ItemType.directory)).length } }

/-- VirtualFileSystem.create (lines 123-146).  Validation happens before
any journal write; an already-existing path is journalled as a failure;
on the success path the inode counter is bumped, the item inserted, the
name appended to the current directory's children (KeyError -> `.exc` if
the current path is missing from the store), stats recounted and the call
journalled. -/
def create (s : VFS) (name : Str) (item_type : ItemType) : PyRes × VFS :=
  if name = [] ∨ '/' ∈ name then (.err (str ("Invalid name!")), s)
  else
    let new_path := joinPath s.current_path name
    if (dictGet s.filesystem new_path).isSome then
      (.err (str ("Item already exists!")),
        logOp s (str ("CREATE")) new_path false)
    else
      let item : FSItem :=
        { name := name, item_type := item_type,
          inode := s.inode_counter + 1, created := s.clock }
      let s1 : VFS :=
        { s with inode_counter := s.inode_counter + 1, clock := s.clock + 1,
                 filesystem := dictSet s.filesystem new_path item }
      match dictGet s1.filesystem s1.current_path with
      | none => (.exc, s1)
      | some cur =>
        let fs2 :=
          dictSet s1.filesystem s1.current_path
            ({ cur with children := cur.children ++ [name] })
        let s2 : VFS := { s1 with filesystem := fs2 }
        let s3 := logOp (updateStats s2) (str ("CREATE")) new_path true
        (.ok (str ("Created ") ++ item_type.value ++ str (": ") ++ name), s3)

/-- VirtualFileSystem.delete (lines 148-171).  A missing path and a
non-empty directory are journalled failures; otherwise the entry is removed
from the store, then `filesystem[current_path].children.remove(name)` runs
(KeyError if the current path is gone, ValueError if the name is not among
its children: both -> `.exc` with the removal already performed), caches are
purged, stats recounted and the call journalled. -/
def delete (s : VFS) (name : Str) : PyRes × VFS :=
  let item_path := joinPath s.current_path name
  match dictGet s.filesystem item_path with
  | none =>
    (.err (str ("Item not found!")),
      logOp s (str ("DELETE")) item_path false)
  | some item =>
    if item.item_type = ItemType.directory ∧ item.children ≠ [] then
      (.err (str ("Cannot delete non-empty directory!")),
        logOp s (str ("DELETE")) item_path false)
    else
      let s1 : VFS :=
        { s with filesystem := dictErase s.filesystem item_path }
      match dictGet s1.filesystem s1.current_path with
      | none => (.exc, s1)
      | some cur =>
        if name ∈ cur.children then
          let fs2 :=
            dictSet s1.filesystem s1.current_path
              ({ cur with children := cur.children.erase name })
          let s2 : VFS := { s1 with filesystem := fs2 }
          let s3 : VFS :=
            if item_path ∈ s2.dentry_cache then
              { s2 with dentry_cache :=
                  s2.dentry_cache.filter (fun p => p ≠ item_path) }
            else s2
          let s4 : VFS :=
            if item.inode ∈ s3.inode_cache then
              { s3 with inode_cache :=
                  s3.inode_cache.filter (fun i => i ≠ item.inode) }
            else s3
          let s5 := logOp (updateStats s4) (str ("DELETE")) item_path true
          (.ok (str ("Deleted: ") ++ name), s5)
        else (.exc, s1)

/-- Python `'/'.join(parts[:-1]) or '/'` used by change_directory's ".."
branch (line 177). -/
def parentOf (cp : Str) : Str :=
  let j := joinSlash (splitSlash cp).dropLast
  if j = [] then rootPath else j

/-- VirtualFileSystem.change_directory (lines 173-200).  The ".." branch
moves to the parent (failure, without journalling, if already at root);
otherwise the joined path must resolve to a directory (both failures are
not journalled), a dentry-cache lookup is counted, and the cursor moves. -/
def change_directory (s : VFS) (name : Str) : PyRes × VFS :=
  if name = str ("..") then
    if s.current_path ≠ rootPath then
      let s1 : VFS := { s with current_path := parentOf s.current_path }
      let s2 := logOp s1 (str ("CHDIR")) s1.current_path true
      (.ok (str ("Changed to ") ++ s1.current_path), s2)
    else (.err (str ("Already at root")), s)
  else
    let new_path := joinPath s.current_path name
    match dictGet s.filesystem new_path with
    | none => (.err (str ("Directory not found!")), s)
    | some item =>
      if item.item_type ≠ ItemType.directory then
        (.err (str ("Not a directory!")), s)
      else
        let s1 : VFS :=
          if new_path ∈ s.dentry_cache then
            { s with stats :=
                { s.stats with cache_hits := s.stats.cache_hits + 1 } }
          else
            { s with
              dentry_cache := s.dentry_cache ++ [new_path],
              stats :=
                { s.stats with cache_misses := s.stats.cache_misses + 1 } }
        let s2 : VFS := { s1 with current_path := new_path }
        let s3 := logOp s2 (str ("CHDIR")) new_path true
        (.ok (str ("Changed to ") ++ new_path), s3)

/-- VirtualFileSystem.read_file (lines 202-220).  Missing path or
non-file resolve silently to no result without journalling; a hit is an
inode-cache lookup by the file's inode, and the successful read is
journalled. -/
def read_file (s : VFS) (name : Str) : Option FSItem × VFS :=
  let file_path := joinPath s.current_path name
  match dictGet s.filesystem file_path with
  | none => (none, s)
  | some item =>
    if item.item_type ≠ ItemType.file then (none, s)
    else
      let s1 : VFS :=
        if item.inode ∈ s.inode_cache then
          { s with stats :=
              { s.stats with cache_hits := s.stats.cache_hits + 1 } }
        else
          { s with
            inode_cache := s.inode_cache ++ [item.inode],
            stats :=
              { s.stats with cache_misses := s.stats.cache_misses + 1 } }
      let s2 := logOp s1 (str ("READ")) file_path true
      (some item, s2)

/-- VirtualFileSystem.write_file (lines 222-239).  Both failures are
journalled; on success the item's content is replaced and its size
recomputed in place. -/
def write_file (s : VFS) (name : Str) (content : Str) : PyRes × VFS :=
  let file_path := joinPath s.current_path name
  match dictGet s.filesystem file_path with
  | none =>
    (.err (str ("File not found!")),
      logOp s (str ("WRITE")) file_path false)
  | some item =>
    if item.item_type ≠ ItemType.file then
      (.err (str ("Not a file!")), logOp s (str ("WRITE")) file_path false)
    else
      let fs1 :=
        dictSet s.filesystem file_path
          ({ item with content := content, size := content.length })
      let s1 : VFS := { s with filesystem := fs1 }
      let s2 := logOp s1 (str ("WRITE")) file_path true
      (.ok (str ("File saved: ") ++ name), s2)

/-- Lexicographic Boolean comparison on model strings, the order used by
Python `sorted` on the children names. -/
def strLe : Str → Str → Bool
  | [], _ => true
  | _ :: _, [] => false
  | a :: as, b :: bs => if a < b then true else if a = b then strLe as bs
                        else false

/-- Insertion into a sorted list of names. -/
def insertSorted (x : Str) : List Str → List Str
  | [] => [x]
  | y :: ys => if strLe x y then x :: y :: ys else y :: insertSorted x ys

/-- Python `sorted` on a list of names. -/
def sortNames (l : List Str) : List Str := l.foldr insertSorted []

/-- VirtualFileSystem.get_current_items (lines 241-254): list the current
directory's children sorted by name; a missing or non-directory current
path yields the empty list without journalling. -/
def get_current_items (s : VFS) : List FSItem × VFS :=
  match dictGet s.filesystem s.current_path with
  | none => ([], s)
  | some cur =>
    if cur.item_type ≠ ItemType.directory then ([], s)
    else
      let items :=
        (sortNames cur.children).filterMap
          (fun child => dictGet s.filesystem (joinPath s.current_path child))
      (items, logOp s (str ("READDIR")) s.current_path true)

/-- VirtualFileSystem.clear_cache (lines 256-259): empty both caches and
journal the call. -/
def clear_cache (s : VFS) : VFS :=
  logOp { s with dentry_cache := [], inode_cache := [] }
    (str ("CACHE_CLEAR")) (str ("system")) true

/-- VirtualFileSystem._create_item_internal (lines 84-104), used only while
seeding the default tree; it ticks the counter and clock, special-cases the
root path, inserts the item and conditionally appends to the parent's
children. -/
def createItemInternal (s : VFS) (parent_path name : Str)
    (item_type : ItemType) : FSItem × VFS :=
  let item : FSItem :=
    { name := name, item_type := item_type,
      inode := s.inode_counter + 1, created := s.clock }
  let full_path :=
    if parent_path = rootPath then
      if name = str ("root") then rootPath else '/' :: name
    else parent_path ++ '/' :: name
  let s1 : VFS :=
    { s with inode_counter := s.inode_counter + 1, clock := s.clock + 1,
             filesystem := dictSet s.filesystem full_path item }
  let s2 : VFS :=
    if (dictGet s1.filesystem parent_path).isSome ∧ name ≠ str ("root") then
      match dictGet s1.filesystem parent_path with
      | none => s1
      | some parent =>
        let fs2 :=
          dictSet s1.filesystem parent_path
            ({ parent with children := parent.children ++ [name] })
        { s1 with filesystem := fs2 }
    else s1
  (item, s2)

/-- Decimal rendering of the abstract clock, standing in for the strftime
timestamp text interpolated into /var/log/system.log's seed content. -/
def tickText (t : Nat) : Str := Nat.toDigits 10 t

/-- VirtualFileSystem.__init__ together with _initialize_filesystem
(lines 48-82): the empty state followed by the canonical seeded tree. -/
def initVFS (label : Str) : VFS :=
  let s0 : VFS :=
    { fs_label := label, filesystem := [], current_path := rootPath,
      inode_counter := 0, stats := ⟨0, 0, 0, 0, 0⟩, operation_log := [],
      dentry_cache := [], inode_cache := [], clock := 0 }
  let s := (createItemInternal s0 rootPath (str ("root")) .directory).2
  let s := (createItemInternal s rootPath (str ("home")) .directory).2
  let s := (createItemInternal s (str ("/home")) (str ("user")) .directory).2
  let s :=
    (createItemInternal s (str ("/home/user")) (str ("documents"))
      .directory).2
  let s :=
    (createItemInternal s (str ("/home/user")) (str ("downloads"))
      .directory).2
  let rm := createItemInternal s (str ("/home/user")) (str ("readme.txt"))
      .file
  let s := rm.2
  let rmContent :=
    str ("Welcome to VFS Simulator\nThis demonstrates Virtual File System ")
      ++ str ("operations with modern GUI.\n\nFeatures:\n- Multi-file ")
      ++ str ("system support\n- Dentry and Inode caching\n- System call ")
      ++ str ("logging\n- Performance statistics")
  let fsA :=
    dictSet s.filesystem (str ("/home/user/readme.txt"))
      ({ rm.1 with content := rmContent, size := rmContent.length })
  let s : VFS := { s with filesystem := fsA }
  let s := (createItemInternal s rootPath (str ("etc")) .directory).2
  let cfg := createItemInternal s (str ("/etc")) (str ("config.txt")) .file
  let s := cfg.2
  let cfgContent :=
    str ("filesystem=") ++ label
      ++ str ("\ncache_enabled=true\nversion=2.0\narchitecture=x64")
  let fsB :=
    dictSet s.filesystem (str ("/etc/config.txt"))
      ({ cfg.1 with content := cfgContent, size := cfgContent.length })
  let s : VFS := { s with filesystem := fsB }
  let s := (createItemInternal s rootPath (str ("var")) .directory).2
  let s := (createItemInternal s (str ("/var")) (str ("log")) .directory).2
  let lg := createItemInternal s (str ("/var/log")) (str ("system.log"))
      .file
  let s := lg.2
  let lgContent :=
    '[' :: tickText s.clock ++ str ("] System initialized\n[")
      ++ tickText (s.clock + 1) ++ str ("] File system mounted: ") ++ label
  let s : VFS := { s with clock := s.clock + 2 }
  let fsC :=
    dictSet s.filesystem (str ("/var/log/system.log"))
      ({ lg.1 with content := lgContent, size := lgContent.length })
  let s : VFS := { s with filesystem := fsC }
  updateStats s

/-- The engine state the GUI constructs at startup:
VirtualFileSystem(FileSystemType.EXT4). -/
def init : VFS := initVFS (str ("ext4"))

/-- Command Surface alphabet: one constructor per public operation. -/
inductive Cmd
  | create (name : Str) (item_type : ItemType)
  | delete (name : Str)
  | chdir (name : Str)
  | readf (name : Str)
  | writef (name : Str) (content : Str)
  | listdir
  | clearCache
deriving DecidableEq

/-- State transition of one Command Surface call (result discarded). -/
def execCmd (s : VFS) : Cmd → VFS
  | .create n t => (create s n t).2
  | .delete n => (delete s n).2
  | .chdir n => (change_directory s n).2
  | .readf n => (read_file s n).2
  | .writef n c => (write_file s n c).2
  | .listdir => (get_current_items s).2
  | .clearCache => clear_cache s

/-- Execution of a sequence of Command Surface calls. -/
def execList (s : VFS) (l : List Cmd) : VFS := l.foldl execCmd s

/-- Absolute path built from a nonempty list of segments, the shape of
every current path the engine can reach. -/
def pathOfSegs (segs : List Str) : Str := '/' :: joinSlash segs

/-- Store entries with distinct paths and distinct inode numbers. -/
def GoodRel (a b : Str × FSItem) : Prop :=
  a.1 ≠ b.1 ∧ a.2.inode ≠ b.2.inode

/-- The distinctness relation is decidable. -/
instance GoodRel.decidable : DecidableRel GoodRel := fun a b =>
  decidable_of_iff (a.1 ≠ b.1 ∧ a.2.inode ≠ b.2.inode) Iff.rfl

/-- Store invariant: entries are pairwise distinct in path and inode, and
every inode is bounded by the allocation counter. -/
def Inv (s : VFS) : Prop :=
  s.filesystem.Pairwise GoodRel ∧
    ∀ e ∈ s.filesystem, e.2.inode ≤ s.inode_counter

/-- Characterisation of which calls reach `_log_operation`: read directly
off the branch structure of each method in vfs.py. -/
def logsCall (s : VFS) : Cmd → Bool
  | .create n _ =>
    if n = [] ∨ '/' ∈ n then false
    else if (dictGet s.filesystem (joinPath s.current_path n)).isSome then
      true
    else (dictGet s.filesystem s.current_path).isSome
  | .delete n =>
    match dictGet s.filesystem (joinPath s.current_path n) with
    | none => true
    | some item =>
      if item.item_type = ItemType.directory ∧ item.children ≠ [] then true
      else
        match
          dictGet (dictErase s.filesystem (joinPath s.current_path n))
            s.current_path with
        | none => false
        | some cur => decide (n ∈ cur.children)
  | .chdir n =>
    if n = str ("..") then decide (s.current_path ≠ rootPath)
    else
      match dictGet s.filesystem (joinPath s.current_path n) with
      | none => false
      | some item => decide (item.item_type = ItemType.directory)
  | .readf n =>
    match dictGet s.filesystem (joinPath s.current_path n) with
    | none => false
    | some item => decide (item.item_type = ItemType.file)
  | .writef _ _ => true
  | .listdir =>
    match dictGet s.filesystem s.current_path with
    | none => false
    | some cur => decide (cur.item_type = ItemType.directory)
  | .clearCache => true

/-- Resolution test: the path is present in the store and holds a file. -/
def resolvesToFile (s : VFS) (p : Str) : Bool :=
  match dictGet s.filesystem p with
  | none => false
  | some it => decide (it.item_type = ItemType.file)

/-- Inode-cache freshness test used to phrase a first read. -/
def inodeUncached (s : VFS) (p : Str) : Bool :=
  match dictGet s.filesystem p with
  | none => false
  | some it => decide (it.inode ∉ s.inode_cache)

/-- Command sequence that empties the seeded tree bottom-up, leaving the
root directory with no children and the cursor at "/". -/
def killSeq : List Cmd :=
  [ .chdir (str ("var")), .chdir (str ("log")),
    .delete (str ("system.log")), .chdir (str ("..")),
    .delete (str ("log")), .chdir (str ("..")), .delete (str ("var")),
    .chdir (str ("etc")), .delete (str ("config.txt")),
    .chdir (str ("..")), .delete (str ("etc")),
    .chdir (str ("home")), .chdir (str ("user")),
    .delete (str ("documents")), .delete (str ("downloads")),
    .delete (str ("readme.txt")), .chdir (str ("..")),
    .delete (str ("user")), .chdir (str ("..")), .delete (str ("home")) ]

/-- Command sequence that creates a directory literally named ".." under
/x (create does not reject that name) and navigates into it through the
unvalidated multi-segment name "x/..", leaving the cursor at the
non-root directory path "/x/.." whose leaf name is "..". -/
def trickSeq : List Cmd :=
  [ .create (str ("x")) .directory, .chdir (str ("x")),
    .create (str ("..")) .directory, .chdir (str ("..")),
    .chdir (str ("x/..")) ]


section Lemmas

/-- Lookup after an in-place assignment at the same key. -/
theorem dictGet_dictSet_self (m : List (Str × FSItem)) (k : Str)
    (v : FSItem) : dictGet (dictSet m k v) k = some v := by
  induction m with
  | nil => simp [dictSet, dictGet]
  | cons hd rest ih =>
    obtain ⟨a, b⟩ := hd
    by_cases ha : a = k
    · simp [dictSet, dictGet, ha]
    · simp [dictSet, dictGet, ha, ih]

/-- Lookup after an assignment at a different key. -/
theorem dictGet_dictSet_ne (m : List (Str × FSItem)) {k k' : Str}
    (v : FSItem) (h : k' ≠ k) :
    dictGet (dictSet m k v) k' = dictGet m k' := by
  induction m with
  | nil => simp [dictSet, dictGet, Ne.symm h]
  | cons hd rest ih =>
    obtain ⟨a, b⟩ := hd
    by_cases ha : a = k
    · subst ha
      simp [dictSet, dictGet, Ne.symm h]
    · by_cases ha' : a = k'
      · simp [dictSet, dictGet, ha, ha', h]
      · simp [dictSet, dictGet, ha, ha', ih]

/-- Membership origin of an entry of a dict after an assignment. -/
theorem mem_dictSet {m : List (Str × FSItem)} {k : Str} {v : FSItem} :
    ∀ {e : Str × FSItem}, e ∈ dictSet m k v → e ∈ m ∨ e = (k, v) := by
  induction m with
  | nil =>
    intro e h
    simp [dictSet] at h
    exact .inr h
  | cons hd rest ih =>
    intro e h
    obtain ⟨a, b⟩ := hd
    by_cases ha : a = k
    · simp only [dictSet, if_pos ha] at h
      rcases List.mem_cons.mp h with h | h
      · exact .inr h
      · exact .inl (List.mem_cons_of_mem _ h)
    · simp only [dictSet, if_neg ha] at h
      rcases List.mem_cons.mp h with h | h
      · exact .inl (List.mem_cons.mpr (.inl h))
      · rcases ih h with h' | h'
        · exact .inl (List.mem_cons_of_mem _ h')
        · exact .inr h'

/-- Membership origin of an entry of a dict after a deletion. -/
theorem mem_dictErase {m : List (Str × FSItem)} {k : Str} :
    ∀ {e : Str × FSItem}, e ∈ dictErase m k → e ∈ m := by
  induction m with
  | nil =>
    intro e h
    simp [dictErase] at h
  | cons hd rest ih =>
    intro e h
    obtain ⟨a, b⟩ := hd
    by_cases ha : a = k
    · simp only [dictErase, if_pos ha] at h
      exact List.mem_cons_of_mem _ h
    · simp only [dictErase, if_neg ha] at h
      rcases List.mem_cons.mp h with h | h
      · exact List.mem_cons.mpr (.inl h)
      · exact List.mem_cons_of_mem _ (ih h)

/-- A successful lookup exhibits a member entry. -/
theorem dictGet_eq_some_mem {m : List (Str × FSItem)} {k : Str} :
    ∀ {v : FSItem}, dictGet m k = some v → (k, v) ∈ m := by
  induction m with
  | nil =>
    intro v h
    simp [dictGet] at h
  | cons hd rest ih =>
    intro v h
    obtain ⟨a, b⟩ := hd
    by_cases ha : a = k
    · simp only [dictGet, if_pos ha] at h
      obtain rfl : b = v := Option.some.inj h
      subst ha
      exact List.mem_cons_self _ _
    · simp only [dictGet, if_neg ha] at h
      exact List.mem_cons_of_mem _ (ih h)

/-- A failed lookup means no entry carries the key. -/
theorem dictGet_eq_none_keys {m : List (Str × FSItem)} {k : Str} :
    dictGet m k = none → ∀ e ∈ m, e.1 ≠ k := by
  induction m with
  | nil =>
    intro _ e he
    simp at he
  | cons hd rest ih =>
    intro h e he
    obtain ⟨a, b⟩ := hd
    by_cases ha : a = k
    · simp [dictGet, ha] at h
    · simp only [dictGet, if_neg ha] at h
      rcases List.mem_cons.mp he with he | he
      · subst he
        simpa using ha
      · exact ih h e he

/-- Pairwise distinctness survives replacing the value at a present key by
one with the same inode. -/
theorem pairwise_dictSet_replace {k : Str} {v : FSItem}
    {m : List (Str × FSItem)} :
    ∀ {old : FSItem}, m.Pairwise GoodRel → dictGet m k = some old →
      v.inode = old.inode → (dictSet m k v).Pairwise GoodRel := by
  induction m with
  | nil =>
    intro old _ hold _
    simp [dictGet] at hold
  | cons hd rest ih =>
    intro old hp hold hi
    obtain ⟨a, b⟩ := hd
    rcases List.pairwise_cons.mp hp with ⟨hhd, hrest⟩
    by_cases ha : a = k
    · simp only [dictGet, if_pos ha] at hold
      obtain rfl : b = old := Option.some.inj hold
      simp only [dictSet, if_pos ha]
      refine List.pairwise_cons.mpr ⟨?_, hrest⟩
      intro e he
      have h2 := hhd e he
      subst ha
      exact ⟨h2.1, by rw [hi]; exact h2.2⟩
    · simp only [dictGet, if_neg ha] at hold
      simp only [dictSet, if_neg ha]
      refine List.pairwise_cons.mpr ⟨?_, ih hrest hold hi⟩
      intro e he
      rcases mem_dictSet he with he' | he'
      · exact hhd e he'
      · subst he'
        have h2 := hhd (k, old) (dictGet_eq_some_mem hold)
        exact ⟨h2.1, by rw [hi]; exact h2.2⟩

/-- Pairwise distinctness survives inserting a fresh key with a fresh
inode. -/
theorem pairwise_dictSet_fresh {k : Str} {v : FSItem}
    {m : List (Str × FSItem)} :
    m.Pairwise GoodRel → (∀ e ∈ m, e.1 ≠ k ∧ e.2.inode ≠ v.inode) →
    (dictSet m k v).Pairwise GoodRel := by
  induction m with
  | nil =>
    intro _ _
    simp [dictSet]
  | cons hd rest ih =>
    intro hp hfresh
    obtain ⟨a, b⟩ := hd
    rcases List.pairwise_cons.mp hp with ⟨hhd, hrest⟩
    have hf := hfresh (a, b) (List.mem_cons_self _ _)
    simp only [dictSet, if_neg hf.1]
    refine List.pairwise_cons.mpr
      ⟨?_, ih hrest (fun e he => hfresh e (List.mem_cons_of_mem _ he))⟩
    intro e he
    rcases mem_dictSet he with he' | he'
    · exact hhd e he'
    · subst he'
      exact ⟨hf.1, hf.2⟩

/-- Pairwise distinctness survives deletion. -/
theorem pairwise_dictErase {k : Str} {m : List (Str × FSItem)} :
    m.Pairwise GoodRel → (dictErase m k).Pairwise GoodRel := by
  induction m with
  | nil =>
    intro _
    simp [dictErase]
  | cons hd rest ih =>
    intro hp
    rcases List.pairwise_cons.mp hp with ⟨hhd, hrest⟩
    obtain ⟨a, b⟩ := hd
    by_cases ha : a = k
    · simpa [dictErase, ha] using hrest
    · simp only [dictErase, if_neg ha]
      exact List.pairwise_cons.mpr
        ⟨fun e he => hhd e (mem_dictErase he), ih hrest⟩

/-- Journalling changes neither the store, the cursor, the counter nor the
caches; it appends one record and bumps the operation counter. -/
theorem logOp_spec (s : VFS) (op path : Str) (b : Bool) :
    (logOp s op path b).filesystem = s.filesystem ∧
    (logOp s op path b).current_path = s.current_path ∧
    (logOp s op path b).inode_counter = s.inode_counter ∧
    (logOp s op path b).dentry_cache = s.dentry_cache ∧
    (logOp s op path b).inode_cache = s.inode_cache ∧
    (logOp s op path b).operation_log.length
      = s.operation_log.length + 1 ∧
    (logOp s op path b).stats.operations = s.stats.operations + 1 ∧
    (logOp s op path b).stats.cache_hits = s.stats.cache_hits ∧
    (logOp s op path b).stats.cache_misses = s.stats.cache_misses := by
  simp [logOp]

/-- Recounting the statistics changes nothing but the two totals. -/
theorem updateStats_spec (s : VFS) :
    (updateStats s).filesystem = s.filesystem ∧
    (updateStats s).current_path = s.current_path ∧
    (updateStats s).inode_counter = s.inode_counter ∧
    (updateStats s).dentry_cache = s.dentry_cache ∧
    (updateStats s).inode_cache = s.inode_cache ∧
    (updateStats s).operation_log = s.operation_log ∧
    (updateStats s).stats.operations = s.stats.operations ∧
    (updateStats s).stats.cache_hits = s.stats.cache_hits ∧
    (updateStats s).stats.cache_misses = s.stats.cache_misses := by
  simp [updateStats]

/-- Joining a nonempty name onto a current path never reproduces the
current path itself. -/
theorem joinPath_ne_self (cp : Str) {name : Str} (h : name ≠ []) :
    joinPath cp name ≠ cp := by
  unfold joinPath
  by_cases hc : cp = rootPath
  · rw [if_pos hc, hc]
    intro he
    have hlen := congrArg List.length he
    have hroot : rootPath.length = 1 := by decide
    rw [List.length_cons, hroot] at hlen
    exact h (List.length_eq_zero.mp (Nat.succ_injective hlen))
  · rw [if_neg hc]
    intro he
    have hlen := congrArg List.length he
    rw [List.length_append, List.length_cons] at hlen
    omega

end Lemmas

section InvariantLemmas

/-- The invariant only depends on the store and the counter. -/
theorem inv_congr {s s' : VFS} (h : Inv s)
    (hfs : s'.filesystem = s.filesystem)
    (hcnt : s'.inode_counter = s.inode_counter) : Inv s' := by
  unfold Inv at h ⊢
  rw [hfs, hcnt]
  exact h

/-- change_directory never touches the store or the counter. -/
theorem change_directory_frame (s : VFS) (n : Str) :
    (change_directory s n).2.filesystem = s.filesystem ∧
    (change_directory s n).2.inode_counter = s.inode_counter := by
  simp only [change_directory]
  split
  · split
    · simp [logOp]
    · simp
  · split
    · simp
    · split
      · simp
      · split <;> simp [logOp]

/-- read_file never touches the store or the counter. -/
theorem read_file_frame (s : VFS) (n : Str) :
    (read_file s n).2.filesystem = s.filesystem ∧
    (read_file s n).2.inode_counter = s.inode_counter := by
  simp only [read_file]
  split
  · simp
  · split
    · simp
    · split <;> simp [logOp]

/-- get_current_items never touches the store or the counter. -/
theorem get_current_items_frame (s : VFS) :
    (get_current_items s).2.filesystem = s.filesystem ∧
    (get_current_items s).2.inode_counter = s.inode_counter := by
  simp only [get_current_items]
  split
  · simp
  · split
    · simp
    · simp [logOp]

/-- clear_cache never touches the store or the counter. -/
theorem clear_cache_frame (s : VFS) :
    (clear_cache s).filesystem = s.filesystem ∧
    (clear_cache s).inode_counter = s.inode_counter := by
  simp [clear_cache, logOp]

/-- write_file never touches the counter, and rewrites the store only by
replacing the written file's entry with one carrying the same inode. -/
theorem write_file_counter (s : VFS) (n c : Str) :
    (write_file s n c).2.inode_counter = s.inode_counter := by
  simp only [write_file]
  split
  · simp [logOp]
  · split
    · simp [logOp]
    · simp [logOp]

/-- delete never touches the counter. -/
theorem delete_counter (s : VFS) (n : Str) :
    (delete s n).2.inode_counter = s.inode_counter := by
  simp only [delete]
  split
  · simp [logOp]
  · split
    · simp [logOp]
    · split
      · simp
      · split_ifs <;> simp [logOp, updateStats]

/-- create bumps the counter by at most one. -/
theorem create_counter_le (s : VFS) (n : Str) (t : ItemType) :
    s.inode_counter ≤ (create s n t).2.inode_counter := by
  simp only [create]
  split
  · simp
  · split
    · simp [logOp]
    · split
      · simp
      · simp [logOp, updateStats]

end InvariantLemmas



section InvariantPreservation

/-- write_file preserves the store invariant. -/
theorem inv_write_file (s : VFS) (n c : Str) (h : Inv s) :
    Inv (write_file s n c).2 := by
  rcases h with ⟨hp, hb⟩
  simp only [write_file]
  cases hget : dictGet s.filesystem (joinPath s.current_path n) with
  | none => exact inv_congr ⟨hp, hb⟩ (by simp [logOp]) (by simp [logOp])
  | some item =>
    simp only []
    by_cases ht : item.item_type ≠ ItemType.file
    · rw [if_pos ht]
      exact inv_congr ⟨hp, hb⟩ (by simp [logOp]) (by simp [logOp])
    · rw [if_neg ht]
      unfold Inv
      simp only [logOp]
      constructor
      · exact pairwise_dictSet_replace hp hget rfl
      · intro e he
        rcases mem_dictSet he with he' | he'
        · exact hb e he'
        · subst he'
          exact hb (joinPath s.current_path n, item)
            (dictGet_eq_some_mem hget)

/-- delete preserves the store invariant, in every branch including the
exception branches. -/
theorem inv_delete (s : VFS) (n : Str) (h : Inv s) : Inv (delete s n).2 := by
  rcases h with ⟨hp, hb⟩
  simp only [delete]
  cases hget : dictGet s.filesystem (joinPath s.current_path n) with
  | none => exact inv_congr ⟨hp, hb⟩ (by simp [logOp]) (by simp [logOp])
  | some item =>
    simp only []
    by_cases hdir : item.item_type = ItemType.directory ∧ item.children ≠ []
    · rw [if_pos hdir]
      exact inv_congr ⟨hp, hb⟩ (by simp [logOp]) (by simp [logOp])
    · rw [if_neg hdir]
      have hp1 := pairwise_dictErase (k := joinPath s.current_path n) hp
      have hb1 : ∀ e ∈ dictErase s.filesystem (joinPath s.current_path n),
          e.2.inode ≤ s.inode_counter :=
        fun e he => hb e (mem_dictErase he)
      cases hcur : dictGet (dictErase s.filesystem (joinPath s.current_path n))
          s.current_path with
      | none =>
        simp only []
        exact ⟨hp1, hb1⟩
      | some cur =>
        simp only []
        by_cases hmem : n ∈ cur.children
        · rw [if_pos hmem]
          split_ifs <;>
          · unfold Inv
            simp only [logOp, updateStats]
            constructor
            · exact pairwise_dictSet_replace hp1 hcur rfl
            · intro e he
              rcases mem_dictSet he with he' | he'
              · exact hb1 e he'
              · subst he'
                exact hb1 (s.current_path, cur) (dictGet_eq_some_mem hcur)
        · rw [if_neg hmem]
          exact ⟨hp1, hb1⟩

/-- create preserves the store invariant, in every branch including the
exception branch. -/
theorem inv_create (s : VFS) (n : Str) (t : ItemType) (h : Inv s) :
    Inv (create s n t).2 := by
  rcases h with ⟨hp, hb⟩
  simp only [create]
  by_cases hv : n = [] ∨ '/' ∈ n
  · rw [if_pos hv]
    exact ⟨hp, hb⟩
  · rw [if_neg hv]
    cases hget : dictGet s.filesystem (joinPath s.current_path n) with
    | some old =>
      simp only [Option.isSome_some, if_true]
      exact inv_congr ⟨hp, hb⟩ (by simp [logOp]) (by simp [logOp])
    | none =>
      simp only [Option.isSome_none]
      rw [if_neg Bool.false_ne_true]
      have hkeys := dictGet_eq_none_keys hget
      have hfresh : ∀ e ∈ s.filesystem,
          e.1 ≠ joinPath s.current_path n ∧
          e.2.inode ≠ s.inode_counter + 1 := by
        intro e he
        exact ⟨hkeys e he, by
          have := hb e he
          omega⟩
      have hp2 := pairwise_dictSet_fresh (v :=
        { name := n, item_type := t, inode := s.inode_counter + 1,
          created := s.clock }) hp hfresh
      have hb2 : ∀ e ∈ dictSet s.filesystem (joinPath s.current_path n)
          { name := n, item_type := t, inode := s.inode_counter + 1,
            created := s.clock }, e.2.inode ≤ s.inode_counter + 1 := by
        intro e he
        rcases mem_dictSet he with he' | he'
        · have := hb e he'
          omega
        · subst he'
          exact Nat.le_refl _
      cases hcur : dictGet (dictSet s.filesystem (joinPath s.current_path n)
          { name := n, item_type := t, inode := s.inode_counter + 1,
            created := s.clock }) s.current_path with
      | none =>
        simp only []
        exact ⟨hp2, hb2⟩
      | some cur =>
        simp only []
        unfold Inv
        simp only [logOp, updateStats]
        constructor
        · exact pairwise_dictSet_replace hp2 hcur rfl
        · intro e he
          rcases mem_dictSet he with he' | he'
          · exact hb2 e he'
          · subst he'
            exact hb2 (s.current_path, cur) (dictGet_eq_some_mem hcur)

/-- Every Command Surface call preserves the store invariant. -/
theorem inv_execCmd (s : VFS) (c : Cmd) (h : Inv s) : Inv (execCmd s c) := by
  cases c with
  | create n t => exact inv_create s n t h
  | delete n => exact inv_delete s n h
  | chdir n =>
    exact inv_congr h (change_directory_frame s n).1
      (change_directory_frame s n).2
  | readf n =>
    exact inv_congr h (read_file_frame s n).1 (read_file_frame s n).2
  | writef n c => exact inv_write_file s n c h
  | listdir =>
    exact inv_congr h (get_current_items_frame s).1
      (get_current_items_frame s).2
  | clearCache =>
    exact inv_congr h (clear_cache_frame s).1 (clear_cache_frame s).2

/-- Command sequences preserve the store invariant. -/
theorem inv_execList (l : List Cmd) :
    ∀ s : VFS, Inv s → Inv (execList s l) := by
  induction l with
  | nil =>
    intro s h
    exact h
  | cons c rest ih =>
    intro s h
    exact ih (execCmd s c) (inv_execCmd s c h)

/-- No Command Surface call ever decreases the inode counter. -/
theorem counter_le_execCmd (s : VFS) (c : Cmd) :
    s.inode_counter ≤ (execCmd s c).inode_counter := by
  cases c with
  | create n t => exact create_counter_le s n t
  | delete n => exact Nat.le_of_eq (delete_counter s n).symm
  | chdir n => exact Nat.le_of_eq (change_directory_frame s n).2.symm
  | readf n => exact Nat.le_of_eq (read_file_frame s n).2.symm
  | writef n c => exact Nat.le_of_eq (write_file_counter s n c).symm
  | listdir => exact Nat.le_of_eq (get_current_items_frame s).2.symm
  | clearCache => exact Nat.le_of_eq (clear_cache_frame s).2.symm

/-- The inode counter is monotone along any command sequence. -/
theorem counter_le_execList (l : List Cmd) :
    ∀ s : VFS, s.inode_counter ≤ (execList s l).inode_counter := by
  induction l with
  | nil =>
    intro s
    exact Nat.le_refl _
  | cons c rest ih =>
    intro s
    exact Nat.le_trans (counter_le_execCmd s c) (ih (execCmd s c))

/-- The seeded state satisfies the store invariant. -/
theorem inv_init : Inv init := by
  unfold Inv
  constructor
  · decide
  · decide

end InvariantPreservation

section CreateSuccess

/-- Splitting a command sequence splits its execution. -/
theorem execList_append (s : VFS) (l0 l1 : List Cmd) :
    execList s (l0 ++ l1) = execList (execList s l0) l1 := by
  simp [execList, List.foldl_append]

/-- A successful create resolves the joined path to exactly the freshly
built node (inode one above the old counter, requested name and kind), and
the resulting store is still pairwise distinct in paths and inodes. -/
theorem create_success_fresh (s : VFS) (n : Str) (t : ItemType)
    (hinv : Inv s) (hsucc : (create s n t).1.isOk = true) :
    dictGet (create s n t).2.filesystem (joinPath s.current_path n)
      = some { name := n, item_type := t, inode := s.inode_counter + 1,
               created := s.clock } ∧
    (create s n t).2.filesystem.Pairwise GoodRel := by
  rcases hinv with ⟨hp, hb⟩
  simp only [create] at hsucc ⊢
  by_cases hv : n = [] ∨ '/' ∈ n
  · rw [if_pos hv] at hsucc
    simp [PyRes.isOk] at hsucc
  · rw [if_neg hv] at hsucc
    rw [if_neg hv]
    have hn : n ≠ [] := fun he => hv (Or.inl he)
    have hne := joinPath_ne_self s.current_path hn
    cases hget : dictGet s.filesystem (joinPath s.current_path n) with
    | some old =>
      rw [hget] at hsucc
      simp only [Option.isSome_some, if_true] at hsucc
      simp [PyRes.isOk] at hsucc
    | none =>
      rw [hget] at hsucc
      simp only [Option.isSome_none] at hsucc
      rw [if_neg Bool.false_ne_true] at hsucc
      simp only [Option.isSome_none]
      rw [if_neg Bool.false_ne_true]
      have hkeys := dictGet_eq_none_keys hget
      have hfresh : ∀ e ∈ s.filesystem,
          e.1 ≠ joinPath s.current_path n ∧
          e.2.inode ≠ s.inode_counter + 1 := by
        intro e he
        refine ⟨hkeys e he, ?_⟩
        have := hb e he
        omega
      have hp2 := pairwise_dictSet_fresh (v :=
        { name := n, item_type := t, inode := s.inode_counter + 1,
          created := s.clock }) hp hfresh
      cases hcur : dictGet (dictSet s.filesystem (joinPath s.current_path n)
          { name := n, item_type := t, inode := s.inode_counter + 1,
            created := s.clock }) s.current_path with
      | none =>
        rw [hcur] at hsucc
        simp only [] at hsucc
        simp [PyRes.isOk] at hsucc
      | some cur =>
        simp only []
        constructor
        · simp only [logOp, updateStats]
          rw [dictGet_dictSet_ne _ _ hne, dictGet_dictSet_self]
        · simp only [logOp, updateStats]
          exact pairwise_dictSet_replace hp2 hcur rfl

end CreateSuccess

section PathLemmas

/-- Splitting a slash-free string yields the single segment. -/
theorem splitSlash_no_slash {a : Str} : '/' ∉ a → splitSlash a = [a] := by
  induction a with
  | nil =>
    intro _
    simp [splitSlash]
  | cons c rest ih =>
    intro h
    have hc : c ≠ '/' := fun he => h (by simp [he])
    have hr : '/' ∉ rest := fun he => h (List.mem_cons_of_mem _ he)
    simp [splitSlash, hc, ih hr]

/-- Splitting past a leading slash-free segment peels it off. -/
theorem splitSlash_append {a : Str} (b : Str) :
    '/' ∉ a → splitSlash (a ++ '/' :: b) = a :: splitSlash b := by
  induction a with
  | nil =>
    intro _
    simp [splitSlash]
  | cons c rest ih =>
    intro h
    have hc : c ≠ '/' := fun he => h (by simp [he])
    have hr : '/' ∉ rest := fun he => h (List.mem_cons_of_mem _ he)
    have hih := ih hr
    simp only [List.cons_append, splitSlash, if_neg hc]
    rw [show rest.append ('/' :: b) = rest ++ '/' :: b from rfl, hih]

/-- Split is the left inverse of join on nonempty lists of slash-free
segments. -/
theorem splitSlash_joinSlash {segs : List Str} :
    segs ≠ [] → (∀ seg ∈ segs, '/' ∉ seg) →
    splitSlash (joinSlash segs) = segs := by
  induction segs with
  | nil =>
    intro h _
    exact absurd rfl h
  | cons a rest ih =>
    intro _ hseg
    cases rest with
    | nil =>
      simp [joinSlash, splitSlash_no_slash (hseg a (by simp))]
    | cons b t =>
      have h1 : joinSlash (a :: b :: t) = a ++ '/' :: joinSlash (b :: t) :=
        rfl
      rw [h1, splitSlash_append _ (hseg a (by simp))]
      rw [ih (by simp) (fun seg hs => hseg seg (List.mem_cons_of_mem _ hs))]

/-- Joining after appending one segment appends it after a slash. -/
theorem joinSlash_append_single {l : List Str} (x : Str) :
    l ≠ [] → joinSlash (l ++ [x]) = joinSlash l ++ '/' :: x := by
  induction l with
  | nil =>
    intro h
    exact absurd rfl h
  | cons a rest ih =>
    intro _
    cases rest with
    | nil => rfl
    | cons b t =>
      have h1 : joinSlash (a :: b :: t) = a ++ '/' :: joinSlash (b :: t) :=
        rfl
      have h2 : joinSlash (a :: ((b :: t) ++ [x]))
          = a ++ '/' :: joinSlash ((b :: t) ++ [x]) := by
        cases t with
        | nil => rfl
        | cons u v => rfl
      rw [List.cons_append, h2, ih (by simp), h1, List.append_assoc]
      rfl

/-- Joining a nonempty list of nonempty segments is nonempty. -/
theorem joinSlash_ne_nil {l : List Str} :
    l ≠ [] → (∀ seg ∈ l, seg ≠ []) → joinSlash l ≠ [] := by
  intro h hseg
  cases l with
  | nil => exact absurd rfl h
  | cons a rest =>
    cases rest with
    | nil => simpa [joinSlash] using hseg a (by simp)
    | cons b t =>
      have h1 : joinSlash (a :: b :: t) = a ++ '/' :: joinSlash (b :: t) :=
        rfl
      rw [h1]
      simp

end PathLemmas

section ReadWriteLemmas

/-- Full-state equation for a read that misses the inode cache. -/
theorem read_file_miss (s : VFS) (f : Str) (it : FSItem)
    (hget : dictGet s.filesystem (joinPath s.current_path f) = some it)
    (hfile : it.item_type = ItemType.file)
    (hmiss : it.inode ∉ s.inode_cache) :
    read_file s f =
      (some it,
        logOp
          { s with inode_cache := s.inode_cache ++ [it.inode],
                   stats := { s.stats with
                     cache_misses := s.stats.cache_misses + 1 } }
          (str ("READ")) (joinPath s.current_path f) true) := by
  have hnf : ¬it.item_type ≠ ItemType.file := by simp [hfile]
  simp only [read_file]
  rw [hget]
  simp only []
  rw [if_neg hnf, if_neg hmiss]

/-- Full-state equation for a read that hits the inode cache. -/
theorem read_file_hit (s : VFS) (f : Str) (it : FSItem)
    (hget : dictGet s.filesystem (joinPath s.current_path f) = some it)
    (hfile : it.item_type = ItemType.file)
    (hhit : it.inode ∈ s.inode_cache) :
    read_file s f =
      (some it,
        logOp
          { s with stats := { s.stats with
                     cache_hits := s.stats.cache_hits + 1 } }
          (str ("READ")) (joinPath s.current_path f) true) := by
  have hnf : ¬it.item_type ≠ ItemType.file := by simp [hfile]
  simp only [read_file]
  rw [hget]
  simp only []
  rw [if_neg hnf, if_pos hhit]

end ReadWriteLemmas

section ClaimTheorems

set_option maxRecDepth 100000

/-- C10: the operations Delete, ChangeDirectory (for names other than
".."), ReadFile and WriteFile do not validate their name argument: names
containing '/' are accepted and resolve multi-segment paths, operating on
nested descendants of currentPath, and an empty name with currentPath at
root resolves the path "/" itself (shown on the seeded state). -/
theorem c10_no_name_validation :
    ((read_file init (str ("home/user/readme.txt"))).1.map
        (fun it => it.name) = some (str ("readme.txt"))) ∧
    (change_directory init (str ("home/user"))).1.isOk = true ∧
    (change_directory init (str ("home/user"))).2.current_path
      = str ("/home/user") ∧
    (write_file init (str ("etc/config.txt")) (str ("x"))).1.isOk
      = true ∧
    ((dictGet
        (write_file init (str ("etc/config.txt")) (str ("x"))).2.filesystem
        (str ("/etc/config.txt"))).map (fun it => it.content))
      = some (str ("x")) ∧
    (dictGet init.filesystem (str ("/var/log/system.log"))).isSome
      = true ∧
    dictGet (delete init (str ("var/log/system.log"))).2.filesystem
        (str ("/var/log/system.log")) = none ∧
    (change_directory init []).1.isOk = true ∧
    (change_directory init []).2.current_path = rootPath ∧
    (delete init []).1
      = PyRes.err (str ("Cannot delete non-empty directory!")) := by
  decide

/-- C1 (counterexample): on the seeded state, the failing
ChangeDirectory("no-such-dir") call appends no journal record and leaves
operationCount unchanged, contradicting the claim that every call appends
exactly one record and increments operationCount. -/
theorem c1_counterexample :
    (change_directory init (str ("no-such-dir"))).1
      = PyRes.err (str ("Directory not found!")) ∧
    (change_directory init (str ("no-such-dir"))).2.operation_log.length
      = init.operation_log.length ∧
    (change_directory init (str ("no-such-dir"))).2.stats.operations
      = init.stats.operations := by
  decide

/-- C1 (amended): a Command Surface call appends exactly one journal
record and increments operationCount by exactly one precisely when it
reaches `_log_operation` (characterised by `logsCall`): always for
WriteFile and ClearCache, for every Delete outcome except its
uncaught-exception branches, for Create except on an invalid name or its
exception branch, and only on success for ChangeDirectory, ReadFile and
ListCurrentDirectory; in every other case the journal and operationCount
are both unchanged, so the two always move in lockstep. -/
theorem c1_journal_accounting (s : VFS) (c : Cmd) :
    (execCmd s c).operation_log.length
      = s.operation_log.length + (if logsCall s c then 1 else 0) ∧
    (execCmd s c).stats.operations
      = s.stats.operations + (if logsCall s c then 1 else 0) := by
  cases c with
  | create n t =>
    simp only [execCmd, create, logsCall]
    by_cases hv : n = [] ∨ '/' ∈ n
    · simp [hv]
    · simp only [if_neg hv]
      cases hget : dictGet s.filesystem (joinPath s.current_path n) with
      | some old => simp [logOp]
      | none =>
        have hn : n ≠ [] := fun he => hv (Or.inl he)
        have hne := joinPath_ne_self s.current_path hn
        simp only [Option.isSome_none]
        simp only [if_neg Bool.false_ne_true]
        rw [dictGet_dictSet_ne _ _ (Ne.symm hne)]
        cases hcur : dictGet s.filesystem s.current_path with
        | none => simp
        | some cur => simp [logOp, updateStats]
  | delete n =>
    simp only [execCmd, delete, logsCall]
    rcases Option.eq_none_or_eq_some
        (dictGet s.filesystem (joinPath s.current_path n)) with
      hget | ⟨item, hget⟩
    · simp only [hget]
      simp [logOp]
    · simp only [hget]
      by_cases hdir : item.item_type = ItemType.directory ∧
          item.children ≠ []
      · simp only [if_pos hdir]
        simp [logOp]
      · simp only [if_neg hdir]
        rcases Option.eq_none_or_eq_some
            (dictGet (dictErase s.filesystem (joinPath s.current_path n))
              s.current_path) with
          hcur | ⟨cur, hcur⟩
        · simp only [hcur]
          simp
        · simp only [hcur]
          by_cases hmem : n ∈ cur.children
          · simp only [if_pos hmem]
            refine ⟨?_, ?_⟩ <;>
            · split_ifs <;> simp_all [logOp, updateStats]
          · simp only [if_neg hmem]
            simp [hmem]
  | chdir n =>
    simp only [execCmd, change_directory, logsCall]
    by_cases hdd : n = str ("..")
    · simp only [if_pos hdd]
      by_cases hroot : s.current_path ≠ rootPath
      · rw [if_pos hroot]
        simp [hroot, logOp]
      · rw [if_neg hroot]
        simp [hroot]
    · simp only [if_neg hdd]
      cases hget : dictGet s.filesystem (joinPath s.current_path n) with
      | none => simp
      | some item =>
        simp only []
        by_cases ht : item.item_type ≠ ItemType.directory
        · rw [if_pos ht]
          simp [ht]
        · rw [if_neg ht]
          have ht' : item.item_type = ItemType.directory := not_not.mp ht
          simp [ht', logOp, apply_ite]
  | readf n =>
    simp only [execCmd, read_file, logsCall]
    rcases Option.eq_none_or_eq_some
        (dictGet s.filesystem (joinPath s.current_path n)) with
      hget | ⟨item, hget⟩
    · simp only [hget]
      simp
    · simp only [hget]
      by_cases ht : item.item_type ≠ ItemType.file
      · simp only [if_pos ht]
        simp [ht]
      · simp only [if_neg ht]
        have ht' : item.item_type = ItemType.file := not_not.mp ht
        refine ⟨?_, ?_⟩ <;>
        · split_ifs <;> simp_all [logOp]
  | writef n c =>
    simp only [execCmd, write_file, logsCall]
    rcases Option.eq_none_or_eq_some
        (dictGet s.filesystem (joinPath s.current_path n)) with
      hget | ⟨item, hget⟩
    · simp only [hget]
      simp [logOp]
    · simp only [hget]
      by_cases ht : item.item_type ≠ ItemType.file
      · simp only [if_pos ht]
        simp [logOp]
      · simp only [if_neg ht]
        simp [logOp]
  | listdir =>
    simp only [execCmd, get_current_items, logsCall]
    rcases Option.eq_none_or_eq_some
        (dictGet s.filesystem s.current_path) with
      hget | ⟨cur, hget⟩
    · simp only [hget]
      simp
    · simp only [hget]
      by_cases ht : cur.item_type ≠ ItemType.directory
      · simp only [if_pos ht]
        simp [ht]
      · simp only [if_neg ht]
        have ht' : cur.item_type = ItemType.directory := not_not.mp ht
        simp [ht', logOp]
  | clearCache =>
    simp [execCmd, clear_cache, logsCall, logOp]

/-- C2: starting from the seeded state the root is a directory, and after
the kill sequence empties the tree, Delete("") at "/" removes the root
entry from the Namespace Store and aborts with an uncaught KeyError,
contradicting the invariant that no Delete call ever removes the root. -/
theorem c2_root_removed_by_delete :
    (dictGet init.filesystem rootPath).map (fun it => it.item_type)
      = some ItemType.directory ∧
    (dictGet (execList init killSeq).filesystem rootPath).map
        (fun it => it.children) = some [] ∧
    (execList init killSeq).current_path = rootPath ∧
    (delete (execList init killSeq) []).1 = PyRes.exc ∧
    dictGet (delete (execList init killSeq) []).2.filesystem rootPath
      = none := by
  decide

/-- C3: for every file resolving in the current directory whose inode is
not yet in the inode cache, a first ReadFile increments cacheMisses by one
with cacheHits unchanged, an immediately following second ReadFile
increments cacheHits by one with cacheMisses unchanged, and after a
ClearCache call the next ReadFile again increments cacheMisses by one with
cacheHits unchanged. -/
theorem c3_read_cache_counters (s : VFS) (f : Str)
    (hres : resolvesToFile s (joinPath s.current_path f) = true)
    (hmiss : inodeUncached s (joinPath s.current_path f) = true) :
    (read_file s f).2.stats.cache_misses = s.stats.cache_misses + 1 ∧
    (read_file s f).2.stats.cache_hits = s.stats.cache_hits ∧
    (read_file (read_file s f).2 f).2.stats.cache_hits
      = (read_file s f).2.stats.cache_hits + 1 ∧
    (read_file (read_file s f).2 f).2.stats.cache_misses
      = (read_file s f).2.stats.cache_misses ∧
    (read_file (clear_cache (read_file (read_file s f).2 f).2)
        f).2.stats.cache_misses
      = (clear_cache
          (read_file (read_file s f).2 f).2).stats.cache_misses + 1 ∧
    (read_file (clear_cache (read_file (read_file s f).2 f).2)
        f).2.stats.cache_hits
      = (clear_cache (read_file (read_file s f).2 f).2).stats.cache_hits
    := by
  unfold resolvesToFile at hres
  unfold inodeUncached at hmiss
  cases hget : dictGet s.filesystem (joinPath s.current_path f) with
  | none =>
    rw [hget] at hres
    simp at hres
  | some it =>
    rw [hget] at hres
    rw [hget] at hmiss
    simp at hres
    simp at hmiss
    have h1 := read_file_miss s f it hget hres hmiss
    have hfs1 : (read_file s f).2.filesystem = s.filesystem := by
      rw [h1]
      simp [logOp]
    have hcp1 : (read_file s f).2.current_path = s.current_path := by
      rw [h1]
      simp [logOp]
    have hic1 : (read_file s f).2.inode_cache
        = s.inode_cache ++ [it.inode] := by
      rw [h1]
      simp [logOp]
    have hm1 : (read_file s f).2.stats.cache_misses
        = s.stats.cache_misses + 1 := by
      rw [h1]
      simp [logOp]
    have hh1 : (read_file s f).2.stats.cache_hits
        = s.stats.cache_hits := by
      rw [h1]
      simp [logOp]
    have hget2 : dictGet (read_file s f).2.filesystem
        (joinPath (read_file s f).2.current_path f) = some it := by
      rw [hfs1, hcp1]
      exact hget
    have hhit2 : it.inode ∈ (read_file s f).2.inode_cache := by
      rw [hic1]
      simp
    have h2 := read_file_hit (read_file s f).2 f it hget2 hres hhit2
    have hfs2 : (read_file (read_file s f).2 f).2.filesystem
        = s.filesystem := by
      rw [h2]
      simp [logOp]
      exact hfs1
    have hcp2 : (read_file (read_file s f).2 f).2.current_path
        = s.current_path := by
      rw [h2]
      simp [logOp]
      exact hcp1
    have hh2 : (read_file (read_file s f).2 f).2.stats.cache_hits
        = (read_file s f).2.stats.cache_hits + 1 := by
      rw [h2]
      simp [logOp]
    have hm2 : (read_file (read_file s f).2 f).2.stats.cache_misses
        = (read_file s f).2.stats.cache_misses := by
      rw [h2]
      simp [logOp]
    have hfs3 : (clear_cache (read_file (read_file s f).2 f).2).filesystem
        = s.filesystem := by
      simp [clear_cache, logOp, hfs2]
    have hcp3 : (clear_cache
        (read_file (read_file s f).2 f).2).current_path
        = s.current_path := by
      simp [clear_cache, logOp, hcp2]
    have hic3 : (clear_cache (read_file (read_file s f).2 f).2).inode_cache
        = [] := by
      simp [clear_cache, logOp]
    have hget3 : dictGet
        (clear_cache (read_file (read_file s f).2 f).2).filesystem
        (joinPath (clear_cache
          (read_file (read_file s f).2 f).2).current_path f)
        = some it := by
      rw [hfs3, hcp3]
      exact hget
    have hmiss3 : it.inode ∉
        (clear_cache (read_file (read_file s f).2 f).2).inode_cache := by
      rw [hic3]
      simp
    have h3 := read_file_miss
      (clear_cache (read_file (read_file s f).2 f).2) f it hget3 hres hmiss3
    have hm3 : (read_file (clear_cache
        (read_file (read_file s f).2 f).2) f).2.stats.cache_misses
        = (clear_cache
            (read_file (read_file s f).2 f).2).stats.cache_misses + 1 := by
      rw [h3]
      simp [logOp]
    have hh3 : (read_file (clear_cache
        (read_file (read_file s f).2 f).2) f).2.stats.cache_hits
        = (clear_cache
            (read_file (read_file s f).2 f).2).stats.cache_hits := by
      rw [h3]
      simp [logOp]
    exact ⟨hm1, hh1, hh2, hm2, hm3, hh3⟩

/-- C3 witness: the chain instantiated on the seeded state with the file
resolved through the name "etc/config.txt". -/
theorem c3_read_cache_counters_witness :
    (resolvesToFile init (joinPath init.current_path
        (str ("etc/config.txt"))) = true) ∧
    (inodeUncached init (joinPath init.current_path
        (str ("etc/config.txt"))) = true) ∧
    ((read_file init (str ("etc/config.txt"))).2.stats.cache_misses
      = init.stats.cache_misses + 1 ∧
    (read_file init (str ("etc/config.txt"))).2.stats.cache_hits
      = init.stats.cache_hits ∧
    (read_file (read_file init (str ("etc/config.txt"))).2
        (str ("etc/config.txt"))).2.stats.cache_hits
      = (read_file init (str ("etc/config.txt"))).2.stats.cache_hits + 1 ∧
    (read_file (read_file init (str ("etc/config.txt"))).2
        (str ("etc/config.txt"))).2.stats.cache_misses
      = (read_file init (str ("etc/config.txt"))).2.stats.cache_misses ∧
    (read_file (clear_cache (read_file
        (read_file init (str ("etc/config.txt"))).2
        (str ("etc/config.txt"))).2)
        (str ("etc/config.txt"))).2.stats.cache_misses
      = (clear_cache (read_file
          (read_file init (str ("etc/config.txt"))).2
          (str ("etc/config.txt"))).2).stats.cache_misses + 1 ∧
    (read_file (clear_cache (read_file
        (read_file init (str ("etc/config.txt"))).2
        (str ("etc/config.txt"))).2)
        (str ("etc/config.txt"))).2.stats.cache_hits
      = (clear_cache (read_file
          (read_file init (str ("etc/config.txt"))).2
          (str ("etc/config.txt"))).2).stats.cache_hits) :=
  ⟨by decide, by decide,
    c3_read_cache_counters init (str ("etc/config.txt"))
      (by decide) (by decide)⟩

/-- C4: writing content c to a file resolving in the current directory
succeeds, and an immediately following ReadFile returns a node whose
content is exactly c and whose size is the length of c. -/
theorem c4_write_read_roundtrip (s : VFS) (f c : Str)
    (hres : resolvesToFile s (joinPath s.current_path f) = true) :
    (write_file s f c).1.isOk = true ∧
    ((read_file (write_file s f c).2 f).1.map (fun it => it.content))
      = some c ∧
    ((read_file (write_file s f c).2 f).1.map (fun it => it.size))
      = some c.length := by
  unfold resolvesToFile at hres
  cases hget : dictGet s.filesystem (joinPath s.current_path f) with
  | none =>
    rw [hget] at hres
    simp at hres
  | some it =>
    rw [hget] at hres
    simp at hres
    have hnf : ¬it.item_type ≠ ItemType.file := by simp [hres]
    have hw : write_file s f c =
        (PyRes.ok (str ("File saved: ") ++ f),
          logOp { s with filesystem := (dictSet s.filesystem
              (joinPath s.current_path f)
              ({ it with content := c, size := c.length })) }
            (str ("WRITE")) (joinPath s.current_path f) true) := by
      simp only [write_file]
      rw [hget]
      simp only []
      rw [if_neg hnf]
    have hfs : (write_file s f c).2.filesystem
        = dictSet s.filesystem (joinPath s.current_path f)
            ({ it with content := c, size := c.length }) := by
      rw [hw]
      simp [logOp]
    have hcp : (write_file s f c).2.current_path = s.current_path := by
      rw [hw]
      simp [logOp]
    have hget2 : dictGet (write_file s f c).2.filesystem
        (joinPath (write_file s f c).2.current_path f)
        = some ({ it with content := c, size := c.length }) := by
      rw [hfs, hcp]
      exact dictGet_dictSet_self _ _ _
    refine ⟨by rw [hw]; rfl, ?_, ?_⟩ <;>
    · simp only [read_file]
      rw [hget2]
      simp only []
      rw [if_neg (show ¬({ it with content := c, size := c.length }
          : FSItem).item_type ≠ ItemType.file by simpa using hnf)]
      simp

/-- C4 witness: the round trip instantiated on the seeded state, the name
"etc/config.txt" and the content "hello". -/
theorem c4_write_read_roundtrip_witness :
    (resolvesToFile init (joinPath init.current_path
        (str ("etc/config.txt"))) = true) ∧
    ((write_file init (str ("etc/config.txt")) (str ("hello"))).1.isOk
      = true ∧
    ((read_file (write_file init (str ("etc/config.txt"))
        (str ("hello"))).2 (str ("etc/config.txt"))).1.map
        (fun it => it.content)) = some (str ("hello")) ∧
    ((read_file (write_file init (str ("etc/config.txt"))
        (str ("hello"))).2 (str ("etc/config.txt"))).1.map
        (fun it => it.size)) = some (str ("hello")).length) :=
  ⟨by decide,
    c4_write_read_roundtrip init (str ("etc/config.txt")) (str ("hello"))
      (by decide)⟩

/-- C5: ChangeDirectory fails with the not-found message when the joined
path is absent, with the not-a-directory message when it resolves to a
file, and with the at-root message for ".." at the root; in every failure
case the entire state (currentPath, Namespace Store and both cache tables
included) is returned unchanged. -/
theorem c5_chdir_failure_frame (s : VFS) (n : Str) :
    (n ≠ str ("..") →
      dictGet s.filesystem (joinPath s.current_path n) = none →
      change_directory s n
        = (PyRes.err (str ("Directory not found!")), s)) ∧
    (∀ it : FSItem, n ≠ str ("..") →
      dictGet s.filesystem (joinPath s.current_path n) = some it →
      it.item_type = ItemType.file →
      change_directory s n
        = (PyRes.err (str ("Not a directory!")), s)) ∧
    (n = str ("..") → s.current_path = rootPath →
      change_directory s n
        = (PyRes.err (str ("Already at root")), s)) := by
  refine ⟨?_, ?_, ?_⟩
  · intro hdd hget
    simp only [change_directory]
    rw [if_neg hdd, hget]
  · intro it hdd hget hfile
    have hnd : it.item_type ≠ ItemType.directory := by
      rw [hfile]
      simp
    simp only [change_directory]
    rw [if_neg hdd, hget]
    simp only []
    rw [if_pos hnd]
  · intro hdd hroot
    have hr : ¬s.current_path ≠ rootPath := by simp [hroot]
    simp only [change_directory]
    rw [if_pos hdd, if_neg hr]

/-- C5 witness: the not-found failure instantiated on the seeded state
with the name "no-such-dir"; the full state is returned untouched. -/
theorem c5_chdir_failure_frame_witness :
    (str ("no-such-dir") ≠ str ("..")) ∧
    (dictGet init.filesystem
      (joinPath init.current_path (str ("no-such-dir"))) = none) ∧
    change_directory init (str ("no-such-dir"))
      = (PyRes.err (str ("Directory not found!")), init) :=
  ⟨by decide, by decide,
    (c5_chdir_failure_frame init (str ("no-such-dir"))).1
      (by decide) (by decide)⟩

/-- C8: Delete applied to a name resolving to a directory with a
non-empty children set fails with the non-empty message and leaves the
Namespace Store exactly as it was. -/
theorem c8_delete_nonempty_unchanged (s : VFS) (n : Str) (it : FSItem)
    (hget : dictGet s.filesystem (joinPath s.current_path n) = some it)
    (hdir : it.item_type = ItemType.directory)
    (hne : it.children ≠ []) :
    (delete s n).1
      = PyRes.err (str ("Cannot delete non-empty directory!")) ∧
    (delete s n).2.filesystem = s.filesystem := by
  simp only [delete]
  rw [hget]
  simp only []
  rw [if_pos ⟨hdir, hne⟩]
  exact ⟨rfl, by simp [logOp]⟩

/-- C8 witness: deleting the non-empty directory "home" on the seeded
state fails and leaves the store unchanged. -/
theorem c8_delete_nonempty_unchanged_witness :
    (dictGet init.filesystem
      (joinPath init.current_path (str ("home"))) = some
        { name := str ("home"), item_type := ItemType.directory,
          inode := 2, created := 1, children := [str ("user")],
          content := [], size := 0 }) ∧
    ((delete init (str ("home"))).1
      = PyRes.err (str ("Cannot delete non-empty directory!")) ∧
    (delete init (str ("home"))).2.filesystem = init.filesystem) :=
  ⟨by decide,
    c8_delete_nonempty_unchanged init (str ("home"))
      { name := str ("home"), item_type := ItemType.directory, inode := 2,
        created := 1, children := [str ("user")], content := [],
        size := 0 }
      (by decide) (by decide) (by decide)⟩

/-- C9: the cache tables never influence results: from two states sharing
the same store and current path but arbitrary (possibly different) cache
tables, ReadFile returns the same node and ChangeDirectory the same
result, and both leave identical stores and current paths; only the
hit/miss counters and the cache contents may differ. -/
theorem c9_cache_noninterference (s1 s2 : VFS) (n : Str)
    (hfs : s1.filesystem = s2.filesystem)
    (hcp : s1.current_path = s2.current_path) :
    (read_file s1 n).1 = (read_file s2 n).1 ∧
    (read_file s1 n).2.filesystem = (read_file s2 n).2.filesystem ∧
    (read_file s1 n).2.current_path = (read_file s2 n).2.current_path ∧
    (change_directory s1 n).1 = (change_directory s2 n).1 ∧
    (change_directory s1 n).2.filesystem
      = (change_directory s2 n).2.filesystem ∧
    (change_directory s1 n).2.current_path
      = (change_directory s2 n).2.current_path := by
  have hread : (read_file s1 n).1 = (read_file s2 n).1 ∧
      (read_file s1 n).2.filesystem = (read_file s2 n).2.filesystem ∧
      (read_file s1 n).2.current_path
        = (read_file s2 n).2.current_path := by
    simp only [read_file]
    rw [hfs, hcp]
    rcases Option.eq_none_or_eq_some
        (dictGet s2.filesystem (joinPath s2.current_path n)) with
      hget | ⟨it, hget⟩
    · simp only [hget]
      exact ⟨by trivial, hfs, hcp⟩
    · simp only [hget]
      by_cases ht : it.item_type ≠ ItemType.file
      · simp only [if_pos ht]
        exact ⟨by trivial, hfs, hcp⟩
      · simp only [if_neg ht]
        refine ⟨by trivial, ?_, ?_⟩ <;> split_ifs <;> simp [logOp, hfs, hcp]
  have hcd : (change_directory s1 n).1 = (change_directory s2 n).1 ∧
      (change_directory s1 n).2.filesystem
        = (change_directory s2 n).2.filesystem ∧
      (change_directory s1 n).2.current_path
        = (change_directory s2 n).2.current_path := by
    simp only [change_directory]
    by_cases hdd : n = str ("..")
    · simp only [if_pos hdd]
      by_cases hroot : s2.current_path ≠ rootPath
      · have hroot1 : s1.current_path ≠ rootPath := by
          rw [hcp]
          exact hroot
        rw [if_pos hroot, if_pos hroot1]
        simp [logOp, hfs, hcp]
      · have hroot1 : ¬s1.current_path ≠ rootPath := by
          rw [hcp]
          exact hroot
        rw [if_neg hroot, if_neg hroot1]
        exact ⟨by trivial, hfs, hcp⟩
    · simp only [if_neg hdd]
      rw [hfs, hcp]
      rcases Option.eq_none_or_eq_some
          (dictGet s2.filesystem (joinPath s2.current_path n)) with
        hget | ⟨it, hget⟩
      · simp only [hget]
        exact ⟨by trivial, hfs, hcp⟩
      · simp only [hget]
        by_cases ht : it.item_type ≠ ItemType.directory
        · simp only [if_pos ht]
          exact ⟨by trivial, hfs, hcp⟩
        · simp only [if_neg ht]
          refine ⟨by trivial, ?_, ?_⟩ <;> split_ifs <;> simp [logOp, hfs, hcp]
  exact ⟨hread.1, hread.2.1, hread.2.2, hcd.1, hcd.2.1, hcd.2.2⟩

/-- C9 witness: the seeded state against the seeded state with stuffed
cache tables, on the name "home". -/
theorem c9_cache_noninterference_witness :
    ((init.filesystem = ({ init with dentry_cache := [str ("/home")], inode_cache := [3, 4, 5] } : VFS).filesystem) ∧
     (init.current_path = ({ init with dentry_cache := [str ("/home")], inode_cache := [3, 4, 5] } : VFS).current_path)) ∧
    ((read_file init (str ("home"))).1 = (read_file ({ init with dentry_cache := [str ("/home")], inode_cache := [3, 4, 5] } : VFS) (str ("home"))).1 ∧
    (read_file init (str ("home"))).2.filesystem = (read_file ({ init with dentry_cache := [str ("/home")], inode_cache := [3, 4, 5] } : VFS) (str ("home"))).2.filesystem ∧
    (read_file init (str ("home"))).2.current_path = (read_file ({ init with dentry_cache := [str ("/home")], inode_cache := [3, 4, 5] } : VFS) (str ("home"))).2.current_path ∧
    (change_directory init (str ("home"))).1 = (change_directory ({ init with dentry_cache := [str ("/home")], inode_cache := [3, 4, 5] } : VFS) (str ("home"))).1 ∧
    (change_directory init (str ("home"))).2.filesystem = (change_directory ({ init with dentry_cache := [str ("/home")], inode_cache := [3, 4, 5] } : VFS) (str ("home"))).2.filesystem ∧
    (change_directory init (str ("home"))).2.current_path = (change_directory ({ init with dentry_cache := [str ("/home")], inode_cache := [3, 4, 5] } : VFS) (str ("home"))).2.current_path) :=
  ⟨⟨rfl, rfl⟩,
    c9_cache_noninterference init ({ init with dentry_cache := [str ("/home")], inode_cache := [3, 4, 5] } : VFS) (str ("home")) rfl rfl⟩

/-- C6: every successful Create assigns the new node an inode equal to the
old counter plus one, strictly greater than every inode in the current
store and in every earlier state of the run (so ids of since-deleted
nodes are never reused and no two nodes ever share an id), and the
created node, resolved at the joined path, has the requested name and
kind. -/
theorem c6_fresh_inode_allocation (l : List Cmd) (n : Str) (t : ItemType)
    (hsucc : (create (execList init l) n t).1.isOk = true) :
    dictGet (create (execList init l) n t).2.filesystem
        (joinPath (execList init l).current_path n)
      = some { name := n, item_type := t,
               inode := (execList init l).inode_counter + 1,
               created := (execList init l).clock } ∧
    (∀ e ∈ (execList init l).filesystem,
      e.2.inode < (execList init l).inode_counter + 1) ∧
    (∀ l0 l1, l = l0 ++ l1 → ∀ e ∈ (execList init l0).filesystem,
      e.2.inode < (execList init l).inode_counter + 1) ∧
    (create (execList init l) n t).2.filesystem.Pairwise GoodRel := by
  have hinv := inv_execList l init inv_init
  have hmain := create_success_fresh (execList init l) n t hinv hsucc
  refine ⟨hmain.1, ?_, ?_, hmain.2⟩
  · intro e he
    have := hinv.2 e he
    omega
  · intro l0 l1 hl e he
    have hinv0 := inv_execList l0 init inv_init
    have h0 := hinv0.2 e he
    have hc : (execList init l0).inode_counter
        ≤ (execList init l).inode_counter := by
      rw [hl, execList_append]
      exact counter_le_execList l1 (execList init l0)
    omega

/-- C6 witness: a fresh file "x" created at the root of the seeded state
receives inode 12, above all eleven seeded inodes. -/
theorem c6_fresh_inode_allocation_witness :
    ((create (execList init []) (str ("x")) ItemType.file).1.isOk
      = true) ∧
    (dictGet (create (execList init []) (str ("x")) ItemType.file).2.filesystem
        (joinPath (execList init []).current_path (str ("x")))
      = some { name := str ("x"), item_type := ItemType.file,
               inode := (execList init []).inode_counter + 1,
               created := (execList init []).clock } ∧
    (∀ e ∈ (execList init []).filesystem,
      e.2.inode < (execList init []).inode_counter + 1) ∧
    (∀ l0 l1, ([] : List Cmd) = l0 ++ l1 →
      ∀ e ∈ (execList init l0).filesystem,
        e.2.inode < (execList init []).inode_counter + 1) ∧
    (create (execList init []) (str ("x"))
        ItemType.file).2.filesystem.Pairwise GoodRel) :=
  ⟨by decide,
    c6_fresh_inode_allocation [] (str ("x")) ItemType.file (by decide)⟩

/-- State equation facts for a successful non-".." ChangeDirectory. -/
theorem change_directory_success (s : VFS) (name : Str) (it : FSItem)
    (hdd : name ≠ str (".."))
    (hget : dictGet s.filesystem (joinPath s.current_path name) = some it)
    (hkind : it.item_type = ItemType.directory) :
    (change_directory s name).1.isOk = true ∧
    (change_directory s name).2.current_path
      = joinPath s.current_path name := by
  simp only [change_directory]
  rw [if_neg hdd, hget]
  simp only []
  rw [if_neg (show ¬it.item_type ≠ ItemType.directory by simp [hkind])]
  constructor
  · rfl
  · split_ifs <;> simp [logOp]

/-- State equation facts for ChangeDirectory("..") away from the root. -/
theorem change_directory_dotdot (s : VFS)
    (hroot : s.current_path ≠ rootPath) :
    (change_directory s (str (".."))).1.isOk = true ∧
    (change_directory s (str (".."))).2.current_path
      = parentOf s.current_path ∧
    (change_directory s (str (".."))).2.filesystem = s.filesystem := by
  simp only [change_directory]
  rw [if_pos trivial, if_pos hroot]
  exact ⟨rfl, by simp [logOp], by simp [logOp]⟩

/-- C7 (counterexample): create() accepts the literal name "..", and the
unvalidated multi-segment name "x/.." lets ChangeDirectory park the
cursor on the non-root directory "/x/.." whose leaf name is "..";
from there ChangeDirectory("..") followed by ChangeDirectory(leaf)
lands at "/" instead of restoring "/x/..". -/
theorem c7_counterexample :
    (execList init trickSeq).current_path = str ("/x/..")  ∧
    (execList init trickSeq).current_path ≠ rootPath ∧
    (dictGet (execList init trickSeq).filesystem
        (str ("/x/.."))).map (fun it => it.item_type)
      = some ItemType.directory ∧
    (change_directory (execList init trickSeq) (str (".."))).1.isOk
      = true ∧
    (change_directory (change_directory (execList init trickSeq)
        (str (".."))).2 (str (".."))).2.current_path = rootPath ∧
    rootPath ≠ str ("/x/..") := by
  decide

/-- C7 (amended): for every state whose currentPath is a non-root
directory written as "/" followed by slash-free nonempty segments, with a
leaf name L other than "..": ChangeDirectory("..") followed by
ChangeDirectory(L) succeeds and restores currentPath to its original
value. -/
theorem c7_dotdot_leaf_roundtrip (s : VFS) (segs : List Str) (it : FSItem)
    (hne : segs ≠ [])
    (hseg : ∀ seg ∈ segs, seg ≠ [] ∧ '/' ∉ seg)
    (hlast : segs.getLast hne ≠ str (".."))
    (hcp : s.current_path = pathOfSegs segs)
    (hdir : dictGet s.filesystem s.current_path = some it)
    (hkind : it.item_type = ItemType.directory) :
    (change_directory s (str (".."))).1.isOk = true ∧
    (change_directory (change_directory s (str (".."))).2
        (segs.getLast hne)).1.isOk = true ∧
    (change_directory (change_directory s (str (".."))).2
        (segs.getLast hne)).2.current_path = s.current_path := by
  have hsegne : ∀ seg ∈ segs, seg ≠ [] := fun seg hs => (hseg seg hs).1
  have hnoslash : ∀ seg ∈ segs, '/' ∉ seg := fun seg hs => (hseg seg hs).2
  have hjoin_ne : joinSlash segs ≠ [] := joinSlash_ne_nil hne hsegne
  have hrootLit : rootPath = ['/'] := rfl
  have hroot : s.current_path ≠ rootPath := by
    rw [hcp, hrootLit]
    unfold pathOfSegs
    intro h
    exact hjoin_ne (List.cons.inj h).2
  have hsplit : splitSlash s.current_path = [] :: segs := by
    rw [hcp]
    unfold pathOfSegs
    rw [show splitSlash ('/' :: joinSlash segs)
        = [] :: splitSlash (joinSlash segs) from by simp [splitSlash]]
    rw [splitSlash_joinSlash hne hnoslash]
  have hdd := change_directory_dotdot s hroot
  obtain ⟨d, L, hdl, hLeq⟩ :
      ∃ d L, segs = d ++ [L] ∧ segs.getLast hne = L :=
    ⟨segs.dropLast, segs.getLast hne,
      (List.dropLast_append_getLast hne).symm, rfl⟩
  rw [hLeq]
  have hLne : L ≠ str ("..") := hLeq ▸ hlast
  cases d with
  | nil =>
    simp only [List.nil_append] at hdl
    have hparent : parentOf s.current_path = rootPath := by
      unfold parentOf
      rw [hsplit, hdl]
      simp [joinSlash]
    have hcp1 : (change_directory s (str (".."))).2.current_path
        = rootPath := by
      rw [hdd.2.1, hparent]
    have hpath1 : joinPath
        (change_directory s (str (".."))).2.current_path L
        = s.current_path := by
      rw [hcp1]
      unfold joinPath
      rw [if_pos rfl, hcp, hdl]
      unfold pathOfSegs
      rfl
    have hget1 : dictGet (change_directory s (str (".."))).2.filesystem
        (joinPath (change_directory s (str (".."))).2.current_path L)
        = some it := by
      rw [hdd.2.2, hpath1]
      exact hdir
    have hs2 := change_directory_success
      (change_directory s (str (".."))).2 L it hLne hget1 hkind
    exact ⟨hdd.1, hs2.1, by rw [hs2.2, hpath1]⟩
  | cons d0 dr =>
    have hdne : (d0 :: dr) ≠ ([] : List Str) := by simp
    have hd_sub : ∀ seg ∈ (d0 :: dr), seg ∈ segs := by
      intro seg hsg
      rw [hdl]
      exact List.mem_append_left _ hsg
    have hjoin_d_ne : joinSlash (d0 :: dr) ≠ [] :=
      joinSlash_ne_nil hdne (fun seg hsg => hsegne seg (hd_sub seg hsg))
    have hparent : parentOf s.current_path
        = '/' :: joinSlash (d0 :: dr) := by
      unfold parentOf
      rw [hsplit, hdl]
      rw [show (([] : Str) :: ((d0 :: dr) ++ [L])).dropLast
          = ([] : Str) :: (d0 :: dr) from by
        rw [List.dropLast_cons_of_ne_nil (by simp), List.dropLast_concat]]
      rw [show joinSlash (([] : Str) :: d0 :: dr)
          = '/' :: joinSlash (d0 :: dr) from rfl]
      rw [if_neg (by simp)]
    have hroot1 : ('/' :: joinSlash (d0 :: dr)) ≠ rootPath := by
      rw [hrootLit]
      intro h
      exact hjoin_d_ne (List.cons.inj h).2
    have hcp1 : (change_directory s (str (".."))).2.current_path
        = '/' :: joinSlash (d0 :: dr) := by
      rw [hdd.2.1, hparent]
    have hpath1 : joinPath
        (change_directory s (str (".."))).2.current_path L
        = s.current_path := by
      rw [hcp1]
      unfold joinPath
      rw [if_neg hroot1, hcp, hdl]
      unfold pathOfSegs
      rw [joinSlash_append_single L hdne]
      rfl
    have hget1 : dictGet (change_directory s (str (".."))).2.filesystem
        (joinPath (change_directory s (str (".."))).2.current_path L)
        = some it := by
      rw [hdd.2.2, hpath1]
      exact hdir
    have hs2 := change_directory_success
      (change_directory s (str (".."))).2 L it hLne hget1 hkind
    exact ⟨hdd.1, hs2.1, by rw [hs2.2, hpath1]⟩

/-- C7 witness: the round trip instantiated below "/home" on the seeded
state, whose leaf name "home" differs from "..". -/
theorem c7_dotdot_leaf_roundtrip_witness :
    ((change_directory init (str ("home"))).2.current_path
      = pathOfSegs [str ("home")]) ∧
    (dictGet (change_directory init (str ("home"))).2.filesystem
        (change_directory init (str ("home"))).2.current_path
      = some { name := str ("home"), item_type := ItemType.directory,
               inode := 2, created := 1, children := [str ("user")],
               content := [], size := 0 }) ∧
    ((change_directory (change_directory init (str ("home"))).2
        (str (".."))).1.isOk = true ∧
    (change_directory (change_directory (change_directory init
        (str ("home"))).2 (str (".."))).2
        ([str ("home")].getLast (by decide))).1.isOk = true ∧
    (change_directory (change_directory (change_directory init
        (str ("home"))).2 (str (".."))).2
        ([str ("home")].getLast (by decide))).2.current_path
      = (change_directory init (str ("home"))).2.current_path) :=
  ⟨by decide, by decide,
    c7_dotdot_leaf_roundtrip (change_directory init (str ("home"))).2
      [str ("home")]
      { name := str ("home"), item_type := ItemType.directory, inode := 2,
        created := 1, children := [str ("user")], content := [],
        size := 0 }
      (by decide) (by decide) (by decide) (by decide) (by decide)
      (by decide)⟩

end ClaimTheorems

end VFSim
